import Mathlib

/-!
Shallow embedding of `main_pydantic.py`, a FastAPI patient-record service.

The persisted JSON file (`pateints.json`) is modelled as an association list
from patient id to stored record, preserving insertion order (Python dicts
iterate in insertion order).  Each handler is modelled as a function from the
loaded store (plus request inputs) to a pair of its HTTP outcome and the
final persisted store: a raised `HTTPException` or pydantic `ValidationError`
means `save_data` was never reached, so the final store equals the input one.

Python floats are modelled as exact rationals (`ℚ`); all thresholds in the
source (18.5, 25, 30, 2.5) are exactly representable binary floats, written
here as the rationals 37/2, 25, 30, 5/2.
-/

namespace HealthAPI

/-- A record as persisted in the JSON file.  `Patient.model_dump()` on the
create path stores the `id` key; `model_dump(exclude='id')` on the update
path omits it, so the stored id is an `Option`.  Both dumps include the
computed fields `bmi` and `verdict`. -/
structure StoredRecord where
  id? : Option String
  name : String
  city : String
  age : Int
  gender : String
  height : ℚ
  weight : ℚ
  bmi : ℚ
  verdict : String
  deriving DecidableEq, Repr

/-- The raw field content of a `Patient` request body (class `Patient`,
lines 9-16): id, name, city, age, gender, height, weight. -/
structure PatientInput where
  id : String
  name : String
  city : String
  age : Int
  gender : String
  height : ℚ
  weight : ℚ
  deriving DecidableEq, Repr

/-- `Patient.bmi` (lines 18-21): `self.weight / (self.height ** 2)`. -/
def PatientInput.bmi (p : PatientInput) : ℚ :=
  p.weight / p.height ^ 2

/-- The verdict threshold chain of `Patient.verdict` (lines 25-35), as a
function of the bmi value it reads. -/
def verdictOf (bmi : ℚ) : String :=
  if bmi < 37/2 then "Underweight"
  else if 37/2 ≤ bmi ∧ bmi < 25 then "Normal"
  else if 25 ≤ bmi ∧ bmi < 30 then "Overweight"
  else "Obese"

/-- `Patient.verdict` (lines 25-35): the threshold chain applied to
`self.bmi`. -/
def PatientInput.verdict (p : PatientInput) : String :=
  verdictOf p.bmi

/-- The gender constraint of the `Patient` model, line 14:
`Literal['male', 'female']` — an exact, case-sensitive string match. -/
def genderOk (g : String) : Bool :=
  g == "male" || g == "female"

/-- Pydantic validation of the `Patient` model (lines 9-16): `age` has
`gt=0, lt=100`, `gender` is `Literal['male','female']`, `height` has
`gt=0, lt=2.5`, `weight` has `gt=0`.  `name` and `city` are plain `str`
fields with no constraint beyond being present. -/
def patientValid (p : PatientInput) : Bool :=
  decide (0 < p.age) && decide (p.age < 100) && genderOk p.gender &&
    decide (0 < p.height) && decide (p.height < 5/2) && decide (0 < p.weight)

/-- `Patient.model_dump()` (line 99): all declared fields plus the computed
fields `bmi` and `verdict`. -/
def model_dump (p : PatientInput) : StoredRecord :=
  { id? := some p.id, name := p.name, city := p.city, age := p.age,
    gender := p.gender, height := p.height, weight := p.weight,
    bmi := p.bmi, verdict := p.verdict }

/-- `Patient.model_dump(exclude='id')` (line 139): same as `model_dump`
but without the `id` key. -/
def model_dump_exclude_id (p : PatientInput) : StoredRecord :=
  { id? := none, name := p.name, city := p.city, age := p.age,
    gender := p.gender, height := p.height, weight := p.weight,
    bmi := p.bmi, verdict := p.verdict }

/-- The request body of the update endpoint (class `PateintUpdate`,
lines 109-115): every field optional, defaulting to `None`. -/
structure PateintUpdate where
  name : Option String := none
  city : Option String := none
  age : Option Int := none
  gender : Option String := none
  height : Option ℚ := none
  weight : Option ℚ := none
  deriving DecidableEq, Repr

/-- Pydantic validation of `PateintUpdate` (lines 109-115): each present
field must satisfy the same constraint as on `Patient`; absent fields are
unconstrained. -/
def patchValid (u : PateintUpdate) : Bool :=
  u.age.all (fun a => decide (0 < a) && decide (a < 100)) &&
    u.gender.all genderOk &&
    u.height.all (fun h => decide (0 < h) && decide (h < 5/2)) &&
    u.weight.all (fun w => decide (0 < w))

/-- The persisted collection: `pateints.json` as a mapping from id to
record, in insertion order. -/
abbrev Store := List (String × StoredRecord)

namespace Store

/-- Python `data[k]` / `k in data`: first (unique, for reachable stores)
entry with the given key. -/
def lookup : Store → String → Option StoredRecord
  | [], _ => none
  | (k', v) :: rest, k => if k' = k then some v else lookup rest k

/-- Python `data[k] = v`: replace the value at an existing key in place,
otherwise append the new key at the end (dict insertion order). -/
def insert : Store → String → StoredRecord → Store
  | [], k, v => [(k, v)]
  | (k', v') :: rest, k, v =>
      if k' = k then (k, v) :: rest else (k', v') :: insert rest k v

/-- Python `del data[k]`: remove the entry with the given key. -/
def erase : Store → String → Store
  | [], _ => []
  | (k', v) :: rest, k => if k' = k then rest else (k', v) :: erase rest k

/-- The keys of the store, in order. -/
def keys (s : Store) : List String :=
  s.map Prod.fst

end Store

/-- HTTP-level failure outcomes: 404 `NotFound`, 400 duplicate-id
`AlreadyExists`, 400 bad query parameter `InvalidArgument`, 422 pydantic
`ValidationError`. -/
inductive Err where
  | notFound
  | alreadyExists
  | invalidArgument
  | validationError
  deriving DecidableEq, Repr

/-- `GET /view` (lines 56-59): load the data and return it; no write. -/
def view (s : Store) : Except Err Store × Store :=
  (.ok s, s)

/-- `GET /pateint/{pateint_id}` (lines 61-69): 404 if the id is absent,
otherwise return the stored record; no write. -/
def view_pateint (s : Store) (pateint_id : String) : Except Err StoredRecord × Store :=
  match s.lookup pateint_id with
  | none => (.error .notFound, s)
  | some r => (.ok r, s)

/-- `valid_fields` (line 74). -/
def valid_fields : List String := ["height", "weight", "bmi"]

/-- The sort key `lambda x: x[sort_by]` (line 82) for the three valid
fields, reading the stored (possibly stale) `bmi` key. -/
def sortKey (x : StoredRecord) (sort_by : String) : ℚ :=
  if sort_by = "height" then x.height
  else if sort_by = "weight" then x.weight
  else x.bmi

/-- Stable insertion of a record into a descending-by-key list: the record
being inserted comes from a later original position, so it goes after
strictly greater keys and before equal ones. -/
def insertByKeyDesc (key : StoredRecord → ℚ) (x : StoredRecord) :
    List StoredRecord → List StoredRecord
  | [] => [x]
  | y :: ys => if key y ≤ key x then x :: y :: ys else y :: insertByKeyDesc key x ys

/-- The local `sorted_data` of the sort handler (line 82):
`sorted(data.values(), key=lambda x: x[sort_by], reverse=sort_order)`.
`sort_order` is the integer `-1` (desc) or `1` (asc); both are truthy, so
`reverse` is effectively `True` for either order and the values are stably
sorted descending by the key.  The handler then discards this list. -/
def sorted_data (s : Store) (sort_by : String) : List StoredRecord :=
  (s.map Prod.snd).foldr (insertByKeyDesc (sortKey · sort_by)) []

/-- `GET /sort` (lines 70-83): validate `sort_by` against `valid_fields`
and `order` against `asc`/`desc` (400 otherwise), compute `sorted_data`
(line 82) — and then `return data`, the unsorted mapping (line 83); no
write. -/
def sort (s : Store) (sort_by order : String) : Except Err Store × Store :=
  if sort_by ∉ valid_fields then (.error .invalidArgument, s)
  else if order ∉ (["asc", "desc"] : List String) then (.error .invalidArgument, s)
  else
    let _ := sorted_data s sort_by
    (.ok s, s)

/-- `POST /create` (lines 85-104).  FastAPI validates the `Patient` body
before the handler runs (422 on failure); the handler then rejects a
duplicate id with 400 (line 94) before any mutation, and otherwise stores
`pateint.model_dump()` under the id and saves. -/
def create_pateint (s : Store) (p : PatientInput) : Except Err Unit × Store :=
  if ¬ patientValid p then (.error .validationError, s)
  else if (s.lookup p.id).isSome then (.error .alreadyExists, s)
  else (.ok (), s.insert p.id (model_dump p))

/-- The merge loop of the update handler (lines 122-128): overlay every
present, non-null patch field onto a copy of the stored record. -/
def mergePatch (r : StoredRecord) (u : PateintUpdate) : StoredRecord :=
  { r with
    name := u.name.getD r.name,
    city := u.city.getD r.city,
    age := u.age.getD r.age,
    gender := u.gender.getD r.gender,
    height := u.height.getD r.height,
    weight := u.weight.getD r.weight }

/-- Python `str.lower()` on the character content of the string (the
gender values in play are ASCII). -/
def lowerString (s : String) : String :=
  ⟨s.data.map Char.toLower⟩

/-- Lines 130-134 of the update handler: lowercase the merged record's
gender (the `'gender' in existing_pateint_info` guard always holds for a
stored record, and the value is a string). -/
def normalizeGender (r : StoredRecord) : StoredRecord :=
  { r with gender := lowerString r.gender }

/-- Line 137-138: set `id` to the path parameter and build the `Patient`
pydantic object from the merged dict (the stale `bmi`/`verdict` keys are
ignored by the model). -/
def toPatientInput (pateint_id : String) (r : StoredRecord) : PatientInput :=
  { id := pateint_id, name := r.name, city := r.city, age := r.age,
    gender := r.gender, height := r.height, weight := r.weight }

/-- `PUT /edit/{pateint_id}` (lines 117-142).  FastAPI validates the
`PateintUpdate` body first (422 on failure); the handler 404s on an
unknown id, merges the patch over a copy of the stored record, lowercases
the merged gender, re-validates the merged record as a `Patient` (422 on
failure, before any write), then stores `model_dump(exclude='id')` and
saves. -/
def update_pateint (s : Store) (pateint_id : String) (u : PateintUpdate) :
    Except Err Unit × Store :=
  if ¬ patchValid u then (.error .validationError, s)
  else
    match s.lookup pateint_id with
    | none => (.error .notFound, s)
    | some existing =>
        let merged := normalizeGender (mergePatch existing u)
        let p := toPatientInput pateint_id merged
        if patientValid p then (.ok (), s.insert pateint_id (model_dump_exclude_id p))
        else (.error .validationError, s)

/-- `DELETE /delete/{pateint_id}` (lines 144-152): 404 if the id is
absent, otherwise delete the entry and save. -/
def delete_pateint (s : Store) (pateint_id : String) : Except Err Unit × Store :=
  match s.lookup pateint_id with
  | none => (.error .notFound, s)
  | some _ => (.ok (), s.erase pateint_id)

/-- Did a handler respond with a success status? -/
def isOk : Except Err Unit → Bool
  | .ok _ => true
  | .error _ => false

/-- A write request against the service: the read endpoints never touch
the file, so a persisted-state trace is a sequence of create, update and
delete requests. -/
inductive Op where
  | create (p : PatientInput)
  | update (pateint_id : String) (u : PateintUpdate)
  | delete (pateint_id : String)

/-- The persisted file after one request (each handler reloads the file
and saves only on success). -/
def stepStore (s : Store) : Op → Store
  | .create p => (create_pateint s p).2
  | .update pateint_id u => (update_pateint s pateint_id u).2
  | .delete pateint_id => (delete_pateint s pateint_id).2

/-- The persisted file after a whole trace of write requests. -/
def runOps (s : Store) : List Op → Store
  | [] => s
  | op :: rest => runOps (stepStore s op) rest

/-- One step of the trace recorder for a patient id: a successful create
of that id resets the updated-since-create flag, a successful update of
that id sets it, and every other request leaves it alone. -/
def flagStep (pid : String) (s : Store) (fl : Bool) : Op → Bool
  | .create p => if isOk (create_pateint s p).1 && p.id == pid then false else fl
  | .update q u => if isOk (update_pateint s q u).1 && q == pid then true else fl
  | .delete _ => fl

/-- Trace recorder for one patient id: `true` once the id has been
successfully updated since it was last successfully created. -/
def updatedSinceCreate (pid : String) : Store → Bool → List Op → Bool
  | _, fl, [] => fl
  | s, fl, op :: rest => updatedSinceCreate pid (stepStore s op) (flagStep pid s fl op) rest

/-- A valid create body sitting exactly on the bmi = 25 boundary
(height 1 m, weight 25 kg). -/
def boundaryPatient : PatientInput :=
  { id := "P001", name := "John Doe", city := "New York", age := 30,
    gender := "male", height := 1, weight := 25 }

/-- A create body that is valid except for its mixed-case gender. -/
def mixedCasePatient : PatientInput :=
  { id := "P002", name := "John Doe", city := "New York", age := 30,
    gender := "Male", height := 1, weight := 70 }

/-- A valid create body whose name and city are empty strings. -/
def emptyNamePatient : PatientInput :=
  { id := "P003", name := "", city := "", age := 30, gender := "male",
    height := 1, weight := 70 }

/-- A valid create body (height 1 m, weight 70 kg). -/
def simplePatient : PatientInput :=
  { id := "P001", name := "John Doe", city := "New York", age := 30,
    gender := "male", height := 1, weight := 70 }

/-- A stored record as the create path persists it, with the `id` key
present and an upper-case gender as it could sit in a hand-edited file. -/
def storedUpperRec : StoredRecord :=
  { id? := some "P001", name := "A", city := "X", age := 30, gender := "MALE",
    height := 1, weight := 20, bmi := 20, verdict := "Normal" }

/-- What the update path persists for `storedUpperRec` after a
weight-only patch of 50 kg: id key gone, gender lowercased, bmi and
verdict recomputed. -/
def storedUpperRecAfter : StoredRecord :=
  { id? := none, name := "A", city := "X", age := 30, gender := "male",
    height := 1, weight := 50, bmi := 50, verdict := "Obese" }

/-- The weight-only patch `{"weight": 50}`. -/
def weightPatch : PateintUpdate :=
  { weight := some 50 }

/-- A persisted record whose age is out of range (as after a hand edit of
the file), with consistent derived fields. -/
def overAgeRec : StoredRecord :=
  { id? := some "P001", name := "A", city := "X", age := 150, gender := "male",
    height := 1, weight := 70, bmi := 70, verdict := "Obese" }

/-- A consistent stored record with bmi 20. -/
def bmi20Rec : StoredRecord :=
  { id? := some "P001", name := "A", city := "X", age := 30, gender := "male",
    height := 1, weight := 20, bmi := 20, verdict := "Normal" }

/-- A consistent stored record with bmi 30. -/
def bmi30Rec : StoredRecord :=
  { id? := some "P002", name := "B", city := "Y", age := 40, gender := "female",
    height := 1, weight := 30, bmi := 30, verdict := "Obese" }

/-- A two-record collection whose insertion order is strictly increasing
in bmi. -/
def increasingBmiStore : Store :=
  [("P001", bmi20Rec), ("P002", bmi30Rec)]

namespace Store

theorem lookup_insert_self (s : Store) (k : String) (v : StoredRecord) :
    (s.insert k v).lookup k = some v := by
  induction s with
  | nil => simp [insert, lookup]
  | cons hd tl ih =>
      obtain ⟨k', v'⟩ := hd
      by_cases hk : k' = k <;> simp [insert, lookup, hk, ih]

theorem lookup_insert_ne (s : Store) (k q : String) (v : StoredRecord) (hq : q ≠ k) :
    (s.insert k v).lookup q = s.lookup q := by
  induction s with
  | nil => simp [insert, lookup, Ne.symm hq]
  | cons hd tl ih =>
      obtain ⟨k', v'⟩ := hd
      by_cases hk : k' = k
      · subst hk
        simp [insert, lookup, Ne.symm hq]
      · simp only [insert, if_neg hk, lookup]
        by_cases hkq : k' = q <;> simp [hkq, ih]

theorem lookup_erase_ne (s : Store) (k q : String) (hq : q ≠ k) :
    (s.erase k).lookup q = s.lookup q := by
  induction s with
  | nil => simp [erase]
  | cons hd tl ih =>
      obtain ⟨k', v'⟩ := hd
      by_cases hk : k' = k
      · subst hk
        simp [erase, lookup, Ne.symm hq]
      · simp only [erase, if_neg hk, lookup]
        by_cases hkq : k' = q <;> simp [hkq, ih]

theorem lookup_eq_none_of_not_mem_keys (s : Store) (k : String) (h : k ∉ s.keys) :
    s.lookup k = none := by
  induction s with
  | nil => simp [lookup]
  | cons hd tl ih =>
      obtain ⟨k', v'⟩ := hd
      simp only [keys, List.map_cons, List.mem_cons, not_or] at h
      simp [lookup, Ne.symm h.1, ih (by simp only [keys]; exact h.2)]

theorem lookup_erase_self (s : Store) (k : String) (hnd : s.keys.Nodup) :
    (s.erase k).lookup k = none := by
  induction s with
  | nil => simp [erase, lookup]
  | cons hd tl ih =>
      obtain ⟨k', v'⟩ := hd
      simp only [keys, List.map_cons, List.nodup_cons] at hnd
      by_cases hk : k' = k
      · subst hk
        simp only [erase, if_pos rfl]
        exact lookup_eq_none_of_not_mem_keys tl k' (by simp only [keys]; exact hnd.1)
      · simp only [erase, if_neg hk, lookup, if_neg hk]
        exact ih (by simp only [keys]; exact hnd.2)

theorem mem_keys_insert (s : Store) (k q : String) (v : StoredRecord) :
    q ∈ (s.insert k v).keys → q ∈ s.keys ∨ q = k := by
  induction s with
  | nil =>
      intro h
      simp only [insert, keys, List.map_cons, List.map_nil, List.mem_singleton] at h
      exact .inr h
  | cons hd tl ih =>
      obtain ⟨k', v'⟩ := hd
      by_cases hk : k' = k
      · subst hk
        intro h
        have he : Store.insert ((k', v') :: tl) k' v = (k', v) :: tl := by
          simp [insert]
        rw [he] at h
        simp only [keys, List.map_cons, List.mem_cons] at h ⊢
        rcases h with h | h
        · exact .inr h
        · exact .inl (.inr h)
      · intro h
        simp only [insert, if_neg hk, keys, List.map_cons, List.mem_cons] at h ⊢
        rcases h with h | h
        · exact .inl (.inl h)
        · rcases ih h with h' | h'
          · exact .inl (.inr h')
          · exact .inr h'

theorem keys_nodup_insert (s : Store) (k : String) (v : StoredRecord)
    (hnd : s.keys.Nodup) : (s.insert k v).keys.Nodup := by
  induction s with
  | nil => simp [insert, keys]
  | cons hd tl ih =>
      obtain ⟨k', v'⟩ := hd
      simp only [keys, List.map_cons, List.nodup_cons] at hnd
      by_cases hk : k' = k
      · subst hk
        have he : Store.insert ((k', v') :: tl) k' v = (k', v) :: tl := by
          simp [insert]
        rw [he]
        simp only [keys, List.map_cons, List.nodup_cons]
        exact ⟨hnd.1, hnd.2⟩
      · simp only [insert, if_neg hk, keys, List.map_cons, List.nodup_cons]
        refine ⟨?_, by simp only [keys] at ih; exact ih hnd.2⟩
        intro hmem
        rcases mem_keys_insert tl k k' v (by simp only [keys]; exact hmem) with h' | h'
        · exact hnd.1 (by simpa [keys] using h')
        · exact hk h'

theorem keys_erase_sublist (s : Store) (k : String) :
    (s.erase k).keys.Sublist s.keys := by
  induction s with
  | nil => simp [erase]
  | cons hd tl ih =>
      obtain ⟨k', v'⟩ := hd
      by_cases hk : k' = k
      · subst hk
        simp only [erase, if_pos rfl, keys, List.map_cons]
        exact (List.sublist_cons_self _ _)
      · simp only [erase, hk, if_false, keys, List.map_cons]
        exact ih.cons₂ _

theorem keys_nodup_erase (s : Store) (k : String) (hnd : s.keys.Nodup) :
    (s.erase k).keys.Nodup :=
  hnd.sublist (keys_erase_sublist s k)

end Store

/-- Case analysis of the create handler: either every check passed and the
dump was inserted and saved, or the handler raised and the file was never
rewritten. -/
theorem create_pateint_cases (s : Store) (p : PatientInput) :
    (create_pateint s p = (.ok (), s.insert p.id (model_dump p)) ∧
      patientValid p = true ∧ s.lookup p.id = none) ∨
    ((create_pateint s p).1 ≠ .ok () ∧ (create_pateint s p).2 = s) := by
  unfold create_pateint
  by_cases hv : patientValid p
  · cases hlk : s.lookup p.id with
    | none => exact .inl ⟨by simp [hv, hlk], hv, rfl⟩
    | some r => exact .inr ⟨by simp [hv, hlk], by simp [hv, hlk]⟩
  · exact .inr ⟨by simp [hv], by simp [hv]⟩

/-- Success characterization of the update handler: a 200 response means
the body and the merged record both validated, and the saved file is the
old one with the id-excluded dump of the merged record written at the
path id. -/
theorem update_pateint_ok (s : Store) (pateint_id : String) (u : PateintUpdate)
    (s' : Store) (h : update_pateint s pateint_id u = (.ok (), s')) :
    ∃ existing, s.lookup pateint_id = some existing ∧ patchValid u = true ∧
      patientValid (toPatientInput pateint_id (normalizeGender (mergePatch existing u))) = true ∧
      s' = s.insert pateint_id
        (model_dump_exclude_id (toPatientInput pateint_id (normalizeGender (mergePatch existing u)))) := by
  unfold update_pateint at h
  by_cases hu : patchValid u
  · simp only [hu, not_true_eq_false, if_false] at h
    cases hlk : s.lookup pateint_id with
    | none => simp [hlk] at h
    | some existing =>
        simp only [hlk] at h
        by_cases hv : patientValid (toPatientInput pateint_id (normalizeGender (mergePatch existing u)))
        · refine ⟨existing, rfl, hu, hv, ?_⟩
          simpa [hv] using h.symm
        · simp [hv] at h
  · simp [hu] at h

/-- The update handler raises before `save_data` whenever it fails: an
error response leaves the store exactly as loaded. -/
theorem update_pateint_error (s : Store) (pateint_id : String) (u : PateintUpdate)
    (e : Err) (h : (update_pateint s pateint_id u).1 = .error e) :
    (update_pateint s pateint_id u).2 = s := by
  unfold update_pateint at h ⊢
  by_cases hu : patchValid u
  · simp only [hu, not_true_eq_false, if_false] at h ⊢
    cases hlk : s.lookup pateint_id with
    | none => simp [hlk]
    | some existing =>
        simp only [hlk] at h ⊢
        by_cases hv : patientValid (toPatientInput pateint_id (normalizeGender (mergePatch existing u)))
        · simp [hv] at h
        · simp [hv]
  · simp [hu]

/-- The delete handler either removes the id and saves, or 404s with the
file untouched. -/
theorem delete_pateint_cases (s : Store) (pateint_id : String) :
    (delete_pateint s pateint_id = (.ok (), s.erase pateint_id) ∧
      (s.lookup pateint_id).isSome) ∨
    ((delete_pateint s pateint_id).1 ≠ .ok () ∧ (delete_pateint s pateint_id).2 = s) := by
  unfold delete_pateint
  cases hlk : s.lookup pateint_id with
  | none => exact .inr ⟨by simp, by simp⟩
  | some r => exact .inl ⟨by simp, by simp [hlk]⟩

theorem isOk_eq_false_of_ne (x : Except Err Unit) (h : x ≠ .ok ()) : isOk x = false := by
  cases x with
  | ok u => cases u; exact absurd rfl h
  | error e => rfl

/-- C2: for every record with positive height, the derived bmi is
weight/height² and the verdict follows the threshold table, each boundary
value falling in the higher band. -/
theorem C2_derive_thresholds (p : PatientInput) (hh : 0 < p.height) :
    p.bmi = p.weight / p.height ^ 2 ∧
    (p.bmi < 37/2 → p.verdict = "Underweight") ∧
    (37/2 ≤ p.bmi → p.bmi < 25 → p.verdict = "Normal") ∧
    (25 ≤ p.bmi → p.bmi < 30 → p.verdict = "Overweight") ∧
    (30 ≤ p.bmi → p.verdict = "Obese") := by
  refine ⟨rfl, ?_, ?_, ?_, ?_⟩
  · intro h1
    simp only [PatientInput.verdict, verdictOf, if_pos h1]
  · intro h1 h2
    simp only [PatientInput.verdict, verdictOf]
    rw [if_neg (not_lt.mpr h1), if_pos ⟨h1, h2⟩]
  · intro h1 h2
    have hn1 : ¬ p.bmi < 37/2 := not_lt.mpr (by linarith)
    have hn2 : ¬ (37/2 ≤ p.bmi ∧ p.bmi < 25) := by
      rintro ⟨-, hlt⟩
      linarith
    simp only [PatientInput.verdict, verdictOf]
    rw [if_neg hn1, if_neg hn2, if_pos ⟨h1, h2⟩]
  · intro h1
    have hn1 : ¬ p.bmi < 37/2 := not_lt.mpr (by linarith)
    have hn2 : ¬ (37/2 ≤ p.bmi ∧ p.bmi < 25) := by
      rintro ⟨-, hlt⟩
      linarith
    have hn3 : ¬ (25 ≤ p.bmi ∧ p.bmi < 30) := by
      rintro ⟨-, hlt⟩
      linarith
    simp only [PatientInput.verdict, verdictOf]
    rw [if_neg hn1, if_neg hn2, if_neg hn3]

/-- C2 witness: the boundary record with height 1 m and weight 25 kg has
bmi exactly 25 and verdict "Overweight". -/
theorem C2_witness : 0 < boundaryPatient.height ∧ boundaryPatient.bmi = 25 ∧
    boundaryPatient.verdict = "Overweight" := by
  have hb : boundaryPatient.bmi = 25 := by
    norm_num [PatientInput.bmi, boundaryPatient]
  have hh : 0 < boundaryPatient.height := by norm_num [boundaryPatient]
  exact ⟨hh, hb,
    (C2_derive_thresholds boundaryPatient hh).2.2.2.1 (by rw [hb]) (by rw [hb]; norm_num)⟩

/-- C6 counterexample: a candidate whose name and city are both the empty
string passes validation, so "name and city non-empty" is not checked. -/
theorem C6_counterexample : patientValid emptyNamePatient = true ∧
    emptyNamePatient.name = "" ∧ emptyNamePatient.city = "" := by
  refine ⟨?_, rfl, rfl⟩
  norm_num [patientValid, genderOk, emptyNamePatient]

/-- C6 (amended): validation accepts a candidate iff the age, gender,
height and weight constraints hold; name and city are unconstrained
strings (the empty string is accepted), and a missing required field is
rejected by the model shape itself. -/
theorem C6_validate_iff (p : PatientInput) :
    patientValid p = true ↔
      (0 < p.age ∧ p.age < 100 ∧ (p.gender = "male" ∨ p.gender = "female") ∧
        0 < p.height ∧ p.height < 5/2 ∧ 0 < p.weight) := by
  simp [patientValid, genderOk, Bool.and_eq_true, Bool.or_eq_true,
    decide_eq_true_eq, and_assoc]

/-- C7: a valid create body whose id is already a key fails with
AlreadyExists, and the file — in particular the record stored under that
id — is exactly as loaded. -/
theorem C7_create_duplicate (s : Store) (p : PatientInput) (r : StoredRecord)
    (hv : patientValid p = true) (hdup : s.lookup p.id = some r) :
    create_pateint s p = (.error .alreadyExists, s) ∧
    (create_pateint s p).2.lookup p.id = some r := by
  have h1 : create_pateint s p = (.error .alreadyExists, s) := by
    unfold create_pateint
    simp [hv, hdup]
  exact ⟨h1, by rw [h1]; exact hdup⟩

/-- C7 witness: creating id "P001" over a one-record store already keyed
by "P001" fails with AlreadyExists and leaves the store unchanged. -/
theorem C7_witness :
    create_pateint [("P001", bmi20Rec)] simplePatient =
      (.error .alreadyExists, [("P001", bmi20Rec)]) ∧
    (create_pateint [("P001", bmi20Rec)] simplePatient).2.lookup simplePatient.id =
      some bmi20Rec :=
  C7_create_duplicate [("P001", bmi20Rec)] simplePatient bmi20Rec
    (by norm_num [patientValid, genderOk, simplePatient])
    (by simp [Store.lookup, simplePatient])

/-- C5: when the merged record fails validation, the update handler
raises ValidationError before `save_data`, so the persisted store — and
in particular the stored record — is byte-for-byte the one loaded. -/
theorem C5_update_invalid_rollback (s : Store) (pateint_id : String)
    (u : PateintUpdate) (r : StoredRecord)
    (hlk : s.lookup pateint_id = some r)
    (hbad : patientValid (toPatientInput pateint_id (normalizeGender (mergePatch r u))) = false) :
    update_pateint s pateint_id u = (.error .validationError, s) ∧
    (update_pateint s pateint_id u).2.lookup pateint_id = some r := by
  have h1 : update_pateint s pateint_id u = (.error .validationError, s) := by
    unfold update_pateint
    by_cases hu : patchValid u
    · simp [hu, hlk, hbad]
    · simp [hu]
  exact ⟨h1, by rw [h1]; exact hlk⟩

/-- C5 witness: an empty patch over a stored record whose age is 150
re-validates the merged record, fails, and leaves the file unchanged. -/
theorem C5_witness :
    update_pateint [("P001", overAgeRec)] "P001" {} =
      (.error .validationError, [("P001", overAgeRec)]) ∧
    (update_pateint [("P001", overAgeRec)] "P001" {}).2.lookup "P001" = some overAgeRec :=
  C5_update_invalid_rollback [("P001", overAgeRec)] "P001" {} overAgeRec
    (by simp [Store.lookup])
    (by norm_num [patientValid, genderOk, toPatientInput, normalizeGender, mergePatch,
      overAgeRec, show lowerString "male" = "male" from by decide])

/-- C10: the persisted collection is written only by a successful write:
the three read handlers always leave the store as loaded, and each write
handler that responds with an error raises before `save_data`, leaving
the store exactly as loaded. -/
theorem C10_no_write_on_failure :
    (∀ s : Store, (view s).2 = s) ∧
    (∀ (s : Store) (pateint_id : String), (view_pateint s pateint_id).2 = s) ∧
    (∀ (s : Store) (sort_by order : String), (sort s sort_by order).2 = s) ∧
    (∀ (s : Store) (p : PatientInput) (e : Err),
      (create_pateint s p).1 = .error e → (create_pateint s p).2 = s) ∧
    (∀ (s : Store) (pateint_id : String) (u : PateintUpdate) (e : Err),
      (update_pateint s pateint_id u).1 = .error e → (update_pateint s pateint_id u).2 = s) ∧
    (∀ (s : Store) (pateint_id : String) (e : Err),
      (delete_pateint s pateint_id).1 = .error e → (delete_pateint s pateint_id).2 = s) := by
  refine ⟨fun s => rfl, ?_, ?_, ?_, ?_, ?_⟩
  · intro s pateint_id
    unfold view_pateint
    cases s.lookup pateint_id <;> rfl
  · intro s sort_by order
    unfold sort
    split_ifs <;> rfl
  · intro s p e h
    rcases create_pateint_cases s p with ⟨heq, -, -⟩ | ⟨-, hsnd⟩
    · rw [heq] at h
      exact absurd h (by simp)
    · exact hsnd
  · intro s pateint_id u e h
    exact update_pateint_error s pateint_id u e h
  · intro s pateint_id e h
    rcases delete_pateint_cases s pateint_id with ⟨heq, -⟩ | ⟨-, hsnd⟩
    · rw [heq] at h
      exact absurd h (by simp)
    · exact hsnd

/-- C10 witness: deleting an id from the empty store 404s and leaves the
store empty. -/
theorem C10_witness : (delete_pateint ([] : Store) "P001").2 = [] :=
  C10_no_write_on_failure.2.2.2.2.2 [] "P001" .notFound
    (by simp [delete_pateint, Store.lookup])

theorem genderOk_iff (g : String) : genderOk g = true ↔ (g = "male" ∨ g = "female") := by
  simp [genderOk]

theorem patientValid_iff (p : PatientInput) :
    patientValid p = true ↔
      (0 < p.age ∧ p.age < 100 ∧ (p.gender = "male" ∨ p.gender = "female") ∧
        0 < p.height ∧ p.height < 5/2 ∧ 0 < p.weight) := by
  simp [patientValid, genderOk, Bool.and_eq_true, Bool.or_eq_true,
    decide_eq_true_eq, and_assoc]

/-- C1 (reference bug, evaluated): on a collection whose insertion order
is strictly increasing in bmi, the sort handler with `sort_by=bmi` and
`order=desc` returns the collection unchanged — in insertion order — and
that returned sequence of records is not non-increasing in bmi.  (The
handler computes `sorted_data` on line 82 and then returns `data` on
line 83.) -/
theorem C1_sort_returns_unsorted :
    sort increasingBmiStore "bmi" "desc" = (.ok increasingBmiStore, increasingBmiStore) ∧
    ¬ List.Chain' (fun a b => b.bmi ≤ a.bmi) (increasingBmiStore.map Prod.snd) := by
  constructor
  · rfl
  · simp only [increasingBmiStore, bmi20Rec, bmi30Rec, List.map_cons, List.map_nil,
      List.chain'_cons, List.chain'_singleton, and_true]
    norm_num

/-- C3 counterexample: a successful weight-only Update of a
freshly-created record drops the stored `id` field (and rewrites an
upper-case stored gender), so not every other field retains its prior
value. -/
theorem C3_counterexample :
    update_pateint [("P001", storedUpperRec)] "P001" weightPatch =
      (.ok (), [("P001", storedUpperRecAfter)]) ∧
    storedUpperRec.id? = some "P001" ∧ storedUpperRecAfter.id? = none ∧
    storedUpperRec.gender = "MALE" ∧ storedUpperRecAfter.gender = "male" := by
  refine ⟨?_, rfl, rfl, rfl, rfl⟩
  norm_num [update_pateint, patchValid, patientValid, genderOk, storedUpperRec,
    weightPatch, storedUpperRecAfter, Store.lookup, Store.insert, mergePatch,
    normalizeGender, toPatientInput, model_dump_exclude_id, PatientInput.bmi,
    PatientInput.verdict, verdictOf, show lowerString "MALE" = "male" from by decide]

/-- C3 (amended): a successful Update whose patch carries at most the
weight field changes only the weight plus the recomputed bmi and verdict,
removes the stored `id` field, and lowercases the stored gender; every
other field of the record, and every other record of the collection,
retains its prior value. -/
theorem C3_update_weight_frame (s : Store) (pateint_id : String) (u : PateintUpdate)
    (r : StoredRecord) (s' : Store)
    (hn : u.name = none) (hc : u.city = none) (ha : u.age = none)
    (hg : u.gender = none) (hh : u.height = none)
    (hlk : s.lookup pateint_id = some r)
    (hok : update_pateint s pateint_id u = (.ok (), s')) :
    ∃ r', s'.lookup pateint_id = some r' ∧
      r'.name = r.name ∧ r'.city = r.city ∧ r'.age = r.age ∧
      r'.gender = lowerString r.gender ∧ r'.height = r.height ∧
      r'.weight = u.weight.getD r.weight ∧
      r'.bmi = r'.weight / r'.height ^ 2 ∧ r'.verdict = verdictOf r'.bmi ∧
      r'.id? = none ∧
      (∀ q, q ≠ pateint_id → s'.lookup q = s.lookup q) := by
  obtain ⟨existing, hlk', hpv, hval, hs'⟩ := update_pateint_ok s pateint_id u s' hok
  rw [hlk] at hlk'
  injection hlk' with he
  subst he
  subst hs'
  refine ⟨_, Store.lookup_insert_self s pateint_id _, ?_, ?_, ?_, ?_, ?_, ?_, ?_, ?_, rfl, ?_⟩
  · simp [model_dump_exclude_id, toPatientInput, normalizeGender, mergePatch, hn]
  · simp [model_dump_exclude_id, toPatientInput, normalizeGender, mergePatch, hc]
  · simp [model_dump_exclude_id, toPatientInput, normalizeGender, mergePatch, ha]
  · simp [model_dump_exclude_id, toPatientInput, normalizeGender, mergePatch, hg]
  · simp [model_dump_exclude_id, toPatientInput, normalizeGender, mergePatch, hh]
  · simp [model_dump_exclude_id, toPatientInput, normalizeGender, mergePatch]
  · simp [model_dump_exclude_id, toPatientInput, PatientInput.bmi]
  · simp [model_dump_exclude_id, toPatientInput, PatientInput.verdict, PatientInput.bmi]
  · intro q hq
    exact Store.lookup_insert_ne s pateint_id q _ hq

/-- C3 witness: the amended frame property evaluated on the concrete
weight-only update of `storedUpperRec`. -/
theorem C3_witness :
    ∃ r', Store.lookup [("P001", storedUpperRecAfter)] "P001" = some r' ∧
      r'.name = storedUpperRec.name ∧ r'.city = storedUpperRec.city ∧
      r'.age = storedUpperRec.age ∧
      r'.gender = lowerString storedUpperRec.gender ∧
      r'.height = storedUpperRec.height ∧
      r'.weight = weightPatch.weight.getD storedUpperRec.weight ∧
      r'.bmi = r'.weight / r'.height ^ 2 ∧ r'.verdict = verdictOf r'.bmi ∧
      r'.id? = none ∧
      (∀ q, q ≠ "P001" →
        Store.lookup [("P001", storedUpperRecAfter)] q =
          Store.lookup [("P001", storedUpperRec)] q) :=
  C3_update_weight_frame [("P001", storedUpperRec)] "P001" weightPatch
    storedUpperRec [("P001", storedUpperRecAfter)]
    rfl rfl rfl rfl rfl (by simp [Store.lookup])
    (by norm_num [update_pateint, patchValid, patientValid, genderOk, storedUpperRec,
      weightPatch, storedUpperRecAfter, Store.lookup, Store.insert, mergePatch,
      normalizeGender, toPatientInput, model_dump_exclude_id, PatientInput.bmi,
      PatientInput.verdict, verdictOf, show lowerString "MALE" = "male" from by decide])

/-- C4 counterexample: "Male" lowercases into the allowed set, yet it is
rejected by validation on the create path and on the update patch — the
input paths are case-sensitive, not case-insensitive. -/
theorem C4_counterexample :
    lowerString "Male" = "male" ∧
    genderOk "Male" = false ∧
    create_pateint [] mixedCasePatient = (.error .validationError, []) ∧
    patchValid { gender := some "Male" } = false := by
  refine ⟨by decide, by decide, ?_, by decide⟩
  simp [create_pateint, show patientValid mixedCasePatient = false from by decide]

/-- C4 (amended): gender input must be exactly the lowercase "male" or
"female" on both the create and the update path — any other casing fails
validation; the update handler additionally lowercases the gender found
in the merged (stored ∪ patch) record before re-validating, so only
stored case-variants are canonicalized, never request input. -/
theorem C4_gender_paths :
    (∀ g : String, genderOk g = true ↔ (g = "male" ∨ g = "female")) ∧
    (∀ p : PatientInput, patientValid p = true → (p.gender = "male" ∨ p.gender = "female")) ∧
    (∀ (u : PateintUpdate) (g : String), u.gender = some g → patchValid u = true →
      (g = "male" ∨ g = "female")) ∧
    (∀ (s : Store) (pateint_id : String) (u : PateintUpdate) (s' : Store)
      (r r' : StoredRecord),
      s.lookup pateint_id = some r → update_pateint s pateint_id u = (.ok (), s') →
      s'.lookup pateint_id = some r' →
      r'.gender = lowerString ((mergePatch r u).gender)) := by
  refine ⟨genderOk_iff, ?_, ?_, ?_⟩
  · intro p hv
    exact ((patientValid_iff p).mp hv).2.2.1
  · intro u g hg hv
    simp only [patchValid, Bool.and_eq_true, hg, Option.all_some] at hv
    exact (genderOk_iff g).mp hv.1.1.2
  · intro s pateint_id u s' r r' hlk hok hlk'
    obtain ⟨existing, hlk'', hpv, hval, hs'⟩ := update_pateint_ok s pateint_id u s' hok
    rw [hlk] at hlk''
    injection hlk'' with he
    subst he
    subst hs'
    rw [Store.lookup_insert_self] at hlk'
    injection hlk' with he'
    subst he'
    rfl

/-- C4 witness: a patch carrying gender "male" that passes patch
validation indeed carries a value of the two-element set. -/
theorem C4_witness : ("male" : String) = "male" ∨ ("male" : String) = "female" :=
  C4_gender_paths.2.2.1 { gender := some "male" } "male" rfl (by decide)

/-- C8: every successful write persists, at the written id, a record
whose stored bmi equals weight/height² of that same record and whose
stored verdict is the threshold function of that bmi — both recomputed
from the merged base fields, never copied. -/
theorem C8_derived_fields_consistent :
    (∀ (s : Store) (p : PatientInput) (s' : Store),
      create_pateint s p = (.ok (), s') →
      ∃ r, s'.lookup p.id = some r ∧
        r.bmi = r.weight / r.height ^ 2 ∧ r.verdict = verdictOf r.bmi) ∧
    (∀ (s : Store) (pateint_id : String) (u : PateintUpdate) (s' : Store),
      update_pateint s pateint_id u = (.ok (), s') →
      ∃ r, s'.lookup pateint_id = some r ∧
        r.bmi = r.weight / r.height ^ 2 ∧ r.verdict = verdictOf r.bmi) := by
  constructor
  · intro s p s' hok
    rcases create_pateint_cases s p with ⟨heq, -, -⟩ | ⟨hne, -⟩
    · rw [heq] at hok
      injection hok with h1 h2
      subst h2
      refine ⟨model_dump p, Store.lookup_insert_self s p.id _, ?_, ?_⟩
      · simp [model_dump, PatientInput.bmi]
      · simp [model_dump, PatientInput.verdict, PatientInput.bmi]
    · exact absurd (by rw [hok]) hne
  · intro s pateint_id u s' hok
    obtain ⟨existing, -, -, -, hs'⟩ := update_pateint_ok s pateint_id u s' hok
    subst hs'
    refine ⟨_, Store.lookup_insert_self s pateint_id _, ?_, ?_⟩
    · simp [model_dump_exclude_id, PatientInput.bmi]
    · simp [model_dump_exclude_id, PatientInput.verdict, PatientInput.bmi]

/-- C8 witness: the consistency of the record persisted by a concrete
successful create. -/
theorem C8_witness :
    ∃ r, ([("P001", model_dump simplePatient)] : Store).lookup simplePatient.id = some r ∧
      r.bmi = r.weight / r.height ^ 2 ∧ r.verdict = verdictOf r.bmi :=
  C8_derived_fields_consistent.1 [] simplePatient [("P001", model_dump simplePatient)]
    (by norm_num [create_pateint, patientValid, genderOk, simplePatient,
      Store.lookup, Store.insert])

theorem keys_nodup_stepStore (s : Store) (op : Op) (hnd : s.keys.Nodup) :
    (stepStore s op).keys.Nodup := by
  cases op with
  | create p =>
      rcases create_pateint_cases s p with ⟨heq, -, -⟩ | ⟨-, hsnd⟩
      · show (create_pateint s p).2.keys.Nodup
        rw [heq]
        exact Store.keys_nodup_insert s p.id _ hnd
      · show (create_pateint s p).2.keys.Nodup
        rw [hsnd]
        exact hnd
  | update pateint_id u =>
      cases hres : (update_pateint s pateint_id u).1 with
      | ok v =>
          cases v
          have hok : update_pateint s pateint_id u =
              (.ok (), (update_pateint s pateint_id u).2) := by
            rw [← hres]
          obtain ⟨existing, -, -, -, hs'⟩ := update_pateint_ok s pateint_id u _ hok
          show (update_pateint s pateint_id u).2.keys.Nodup
          rw [hs']
          exact Store.keys_nodup_insert s pateint_id _ hnd
      | error e =>
          show (update_pateint s pateint_id u).2.keys.Nodup
          rw [update_pateint_error s pateint_id u e hres]
          exact hnd
  | delete pateint_id =>
      rcases delete_pateint_cases s pateint_id with ⟨heq, -⟩ | ⟨-, hsnd⟩
      · show (delete_pateint s pateint_id).2.keys.Nodup
        rw [heq]
        exact Store.keys_nodup_erase s pateint_id hnd
      · show (delete_pateint s pateint_id).2.keys.Nodup
        rw [hsnd]
        exact hnd

theorem idField_step (pid : String) (s : Store) (fl : Bool) (op : Op)
    (hnd : s.keys.Nodup)
    (hinv : ∀ r, s.lookup pid = some r → r.id?.isSome = !fl) :
    ∀ r, (stepStore s op).lookup pid = some r →
      r.id?.isSome = !(flagStep pid s fl op) := by
  cases op with
  | create p =>
      rcases create_pateint_cases s p with ⟨heq, -, -⟩ | ⟨hne, hsnd⟩
      · have hfst : isOk (create_pateint s p).1 = true := by
          rw [heq]
          rfl
        intro r hr
        have hstep : stepStore s (.create p) = s.insert p.id (model_dump p) := by
          show (create_pateint s p).2 = _
          rw [heq]
        rw [hstep] at hr
        by_cases hpid : p.id = pid
        · subst hpid
          rw [Store.lookup_insert_self] at hr
          injection hr with hr'
          subst hr'
          simp [flagStep, hfst, model_dump]
        · rw [Store.lookup_insert_ne s p.id pid _ (fun h => hpid h.symm)] at hr
          simpa [flagStep, hfst, hpid] using hinv r hr
      · intro r hr
        have hstep : stepStore s (.create p) = s := hsnd
        rw [hstep] at hr
        have hfst : isOk (create_pateint s p).1 = false := isOk_eq_false_of_ne _ hne
        simpa [flagStep, hfst] using hinv r hr
  | update q u =>
      cases hres : (update_pateint s q u).1 with
      | ok v =>
          cases v
          have hok : update_pateint s q u = (.ok (), (update_pateint s q u).2) := by
            rw [← hres]
          obtain ⟨existing, hlk, -, -, hs'⟩ := update_pateint_ok s q u _ hok
          have hfst : isOk (update_pateint s q u).1 = true := by
            rw [hres]
            rfl
          intro r hr
          have hstep : stepStore s (.update q u) = (update_pateint s q u).2 := rfl
          rw [hstep, hs'] at hr
          by_cases hq : q = pid
          · subst hq
            rw [Store.lookup_insert_self] at hr
            injection hr with hr'
            subst hr'
            simp [flagStep, hfst, model_dump_exclude_id]
          · rw [Store.lookup_insert_ne s q pid _ (fun h => hq h.symm)] at hr
            simpa [flagStep, hfst, hq] using hinv r hr
      | error e =>
          have hfst : isOk (update_pateint s q u).1 = false := by
            rw [hres]
            rfl
          intro r hr
          have hstep : stepStore s (.update q u) = (update_pateint s q u).2 := rfl
          rw [hstep, update_pateint_error s q u e hres] at hr
          simpa [flagStep, hfst] using hinv r hr
  | delete q =>
      rcases delete_pateint_cases s q with ⟨heq, -⟩ | ⟨-, hsnd⟩
      · intro r hr
        have hstep : stepStore s (.delete q) = s.erase q := by
          show (delete_pateint s q).2 = _
          rw [heq]
        rw [hstep] at hr
        by_cases hq : q = pid
        · subst hq
          rw [Store.lookup_erase_self s q hnd] at hr
          exact absurd hr (by simp)
        · rw [Store.lookup_erase_ne s q pid (fun h => hq h.symm)] at hr
          simpa [flagStep] using hinv r hr
      · intro r hr
        have hstep : stepStore s (.delete q) = s := hsnd
        rw [hstep] at hr
        simpa [flagStep] using hinv r hr

theorem idField_invariant (pid : String) (ops : List Op) :
    ∀ (s : Store) (fl : Bool), s.keys.Nodup →
      (∀ r, s.lookup pid = some r → r.id?.isSome = !fl) →
      ∀ r, (runOps s ops).lookup pid = some r →
        r.id?.isSome = !(updatedSinceCreate pid s fl ops) := by
  induction ops with
  | nil =>
      intro s fl hnd hinv r hr
      simpa [updatedSinceCreate] using hinv r (by simpa [runOps] using hr)
  | cons op rest ih =>
      intro s fl hnd hinv r hr
      rw [show runOps s (op :: rest) = runOps (stepStore s op) rest from rfl] at hr
      rw [show updatedSinceCreate pid s fl (op :: rest) =
            updatedSinceCreate pid (stepStore s op) (flagStep pid s fl op) rest from rfl]
      exact ih (stepStore s op) (flagStep pid s fl op) (keys_nodup_stepStore s op hnd)
        (idField_step pid s fl op hnd hinv) r hr

/-- C9: the create path persists the record with its `id` field, the
update path persists it with the `id` field excluded, and hence — over
any trace of write requests from an empty file — GetOne returns a record
carrying an `id` field iff that id has never been successfully updated
since it was last created. -/
theorem C9_id_field_iff_never_updated :
    (∀ (s : Store) (p : PatientInput) (s' : Store),
      create_pateint s p = (.ok (), s') →
      ∃ r, s'.lookup p.id = some r ∧ r.id? = some p.id) ∧
    (∀ (s : Store) (pateint_id : String) (u : PateintUpdate) (s' : Store),
      update_pateint s pateint_id u = (.ok (), s') →
      ∃ r, s'.lookup pateint_id = some r ∧ r.id? = none) ∧
    (∀ (ops : List Op) (pid : String) (r : StoredRecord),
      (view_pateint (runOps [] ops) pid).1 = .ok r →
      (r.id?.isSome = true ↔ updatedSinceCreate pid [] false ops = false)) := by
  refine ⟨?_, ?_, ?_⟩
  · intro s p s' hok
    rcases create_pateint_cases s p with ⟨heq, -, -⟩ | ⟨hne, -⟩
    · rw [heq] at hok
      injection hok with h1 h2
      subst h2
      exact ⟨model_dump p, Store.lookup_insert_self s p.id _, rfl⟩
    · exact absurd (by rw [hok]) hne
  · intro s pateint_id u s' hok
    obtain ⟨existing, -, -, -, hs'⟩ := update_pateint_ok s pateint_id u s' hok
    subst hs'
    exact ⟨_, Store.lookup_insert_self s pateint_id _, rfl⟩
  · intro ops pid r hview
    have hr : (runOps [] ops).lookup pid = some r := by
      unfold view_pateint at hview
      cases hlk : (runOps [] ops).lookup pid with
      | none => rw [hlk] at hview; exact absurd hview (by simp)
      | some r' =>
          rw [hlk] at hview
          simp only at hview
          injection hview with he
          rw [he]
    have h := idField_invariant pid ops [] false (by simp [Store.keys])
      (fun r hr => by simp [Store.lookup] at hr) r hr
    rw [h]
    cases updatedSinceCreate pid [] false ops <;> simp

/-- C9 witness: after the single-request trace that creates
`simplePatient`, GetOne on its id returns the dump with the `id` field,
and the recorder says it was never updated since creation. -/
theorem C9_witness :
    (model_dump simplePatient).id?.isSome = true ↔
      updatedSinceCreate "P001" [] false [Op.create simplePatient] = false :=
  C9_id_field_iff_never_updated.2.2 [Op.create simplePatient] "P001" (model_dump simplePatient)
    (by norm_num [view_pateint, runOps, stepStore, create_pateint, patientValid,
      genderOk, simplePatient, Store.insert, Store.lookup])

end HealthAPI
